import Mathlib

/-!
A shallow embedding of src/image_generator.py (the text-image renderer of the
telegram-text-image-bot repository) together with proofs about its font
resolution, font-size fitting loop, outline/spacing rescaling, layout
computation and outline drawing.

The host is abstracted by two environments: a filesystem oracle (which
candidate font paths exist) and a text-measurement oracle (what
ImageDraw.textbbox returns for a given font and string).  Everything the
Python code computes from those oracles is embedded as executable Lean
functions; PNG encoding is a fixed function of the render result, so the
render result itself is the output being reasoned about.
-/

/-- Filesystem oracle: Path(p).exists() for a path string p. -/
structure PathEnv where
  exist : String → Bool

/-- The ordered candidate font list of find_thai_font, with the module's
SCRIPT_DIR kept abstract. -/
def font_paths (scriptDir : String) : List String :=
  [scriptDir ++ "/fonts/PSLxOmyim-Bold.ttf",
   "/System/Library/AssetsV2/com_apple_MobileAsset_Font8/07da2743cea0a1354e81aa4a33c736f3a8066a79.asset/AssetData/K2D.ttc",
   "/System/Library/AssetsV2/com_apple_MobileAsset_Font8/cf0dc8d3b09f9ba379660e591e82566e2b557949.asset/AssetData/Sarabun.ttc",
   "/System/Library/Fonts/Supplemental/SukhumvitSet.ttc",
   "/usr/share/fonts/truetype/thai/Sarabun-Bold.ttf",
   "/usr/share/fonts/truetype/noto/NotoSansThai-Bold.ttf"]

/-- find_thai_font (lines 14-33): the first candidate path that exists on
disk, or none when no candidate exists. -/
def find_thai_font (env : PathEnv) (scriptDir : String) : Option String :=
  (font_paths scriptDir).find? env.exist

/-- A font value as assigned in the fitting loop: either
ImageFont.truetype(path, size) or ImageFont.load_default(). -/
inductive LoadedFont where
  | truetype (path : String) (size : Int)
  | defaultFont
deriving DecidableEq

/-- A text bounding box (x0, y0, x1, y1) as returned by ImageDraw.textbbox. -/
structure BBox where
  x0 : Int
  y0 : Int
  x1 : Int
  y1 : Int
deriving DecidableEq

/-- Text-measurement oracle: what textbbox returns for a truetype font (given
its path and size) and for the default font. -/
structure TextEnv where
  bbox : String → Int → String → BBox
  bboxDefault : String → BBox

/-- Measurement with whichever font the loop loaded. -/
def bboxOf (env : TextEnv) : LoadedFont → String → BBox
  | LoadedFont.truetype p s, t => env.bbox p s t
  | LoadedFont.defaultFont, t => env.bboxDefault t

/-- Measured width bbox[2] - bbox[0] of text t at truetype size s. -/
def textWidth (env : TextEnv) (p : String) (s : Int) (t : String) : Int :=
  (env.bbox p s t).x1 - (env.bbox p s t).x0

/-- Width of the wider of the two lines at truetype size s. -/
def maxTextWidth (env : TextEnv) (p : String) (s : Int) (line1 line2 : String) : Int :=
  max (textWidth env p s line1) (textWidth env p s line2)

/-- The loop's acceptance test at size s (line 115):
max_text_width + side_pad * 2 <= max_width with side_pad = outline_width * 2. -/
def fitsAt (env : TextEnv) (p : String) (line1 line2 : String)
    (outline_width max_width s : Int) : Prop :=
  maxTextWidth env p s line1 line2 + (outline_width * 2) * 2 ≤ max_width

instance (env : TextEnv) (p : String) (line1 line2 : String) (ow mw s : Int) :
    Decidable (fitsAt env p line1 line2 ow mw s) := by
  unfold fitsAt; infer_instance

/-- Arithmetic shape of the sizes the loop can try starting from font_size:
at least min_font_size and of the form font_size - 10 * k. -/
def triedSize (font_size min_font_size s : Int) : Prop :=
  min_font_size ≤ s ∧ ∃ k : Nat, s = font_size - 10 * k

/-- The while loop of generate_text_image (lines 96-119).  lastFont is the
value of the local variable font left over from the previous iteration (none
before the first one) and current is current_font_size.  The Nat argument is
structural fuel whose exhaustion branch returns exactly what the loop-exit
branch returns; every caller passes (current - min_font_size).toNat + 1,
which is shown sufficient for the fuel never to influence the result. -/
def fitLoop (env : TextEnv) (fontPath : Option String) (line1 line2 : String)
    (outline_width max_width min_font_size : Int) :
    Nat → Option LoadedFont → Int → Int × Option LoadedFont
  | 0, lastFont, current => (current, lastFont)
  | fuel + 1, lastFont, current =>
    if min_font_size ≤ current then
      match fontPath with
      | none => (current, some LoadedFont.defaultFont)
      | some p =>
        if fitsAt env p line1 line2 outline_width max_width current then
          (current, some (LoadedFont.truetype p current))
        else
          fitLoop env fontPath line1 line2 outline_width max_width min_font_size
            fuel (some (LoadedFont.truetype p current)) (current - 10)
    else (current, lastFont)

/-- The fitting loop exactly as generate_text_image runs it: font resolution
first, then the loop started at font_size with font unassigned.  The first
component is current_font_size at loop exit, the second is the last value
assigned to the local variable font (none when the body never ran). -/
def fitResult (penv : PathEnv) (tenv : TextEnv) (scriptDir line1 line2 : String)
    (outline_width max_width min_font_size font_size : Int) :
    Int × Option LoadedFont :=
  fitLoop tenv (find_thai_font penv scriptDir) line1 line2 outline_width max_width
    min_font_size ((font_size - min_font_size).toNat + 1) none font_size

/-- One draw.text call: position, text, font and fill colour, in the order
the code issues them. -/
inductive DrawOp where
  | text (pos : Int × Int) (content : String) (font : LoadedFont) (color : String)
deriving DecidableEq

/-- Python range(a, b) as a list of integers. -/
def pyRange (a b : Int) : List Int :=
  (List.range (b - a).toNat).map fun i : Nat => a + (i : Int)

/-- draw_text_with_outline (lines 36-55) as the ordered list of draw.text
calls it makes: one stamp in the outline colour for every (dx, dy) in the
square with dx * dx + dy * dy <= outline_width ^ 2, then the fill draw. -/
def draw_text_with_outline (position : Int × Int) (text : String) (font : LoadedFont)
    (fill_color outline_color : String) (outline_width : Int) : List DrawOp :=
  ((pyRange (-outline_width) (outline_width + 1)).flatMap fun dx =>
    (pyRange (-outline_width) (outline_width + 1)).filterMap fun dy =>
      if dx * dx + dy * dy ≤ outline_width * outline_width then
        some (DrawOp.text (position.1 + dx, position.2 + dy) text font outline_color)
      else none)
  ++ [DrawOp.text position text font fill_color]

/-- Everything generate_text_image computes before PNG encoding: canvas size,
the font drawn with, the (possibly rescaled) outline width and line spacing,
and the draw calls issued in order.  PNG bytes are a fixed function of this
record. -/
structure RenderResult where
  img_width : Int
  img_height : Int
  fontUsed : LoadedFont
  owUsed : Int
  lsUsed : Int
  ops : List DrawOp
deriving DecidableEq

/-- Lines 121-176 of generate_text_image: rescale outline width and line
spacing when the loop reduced the size (Python int() truncates toward zero,
which is Int.tdiv here), re-measure with the final font, lay the canvas out
and draw both lines.  current_font_size is the loop-exit value, font the
loop's last loaded font. -/
def renderWith (tenv : TextEnv) (line1 line2 : String) (font_size : Int)
    (line1_color line2_color outline_color : String)
    (outline_width line_spacing : Int)
    (current_font_size : Int) (font : LoadedFont) : RenderResult :=
  let ow := if current_font_size < font_size then
      max 8 ((outline_width * current_font_size).tdiv font_size)
    else outline_width
  let ls := if current_font_size < font_size then
      max 10 ((line_spacing * current_font_size).tdiv font_size)
    else line_spacing
  let b1 := bboxOf tenv font line1
  let b2 := bboxOf tenv font line2
  let text1_width := b1.x1 - b1.x0
  let text1_height := b1.y1 - b1.y0
  let text2_width := b2.x1 - b2.x0
  let text2_height := b2.y1 - b2.y0
  let top_pad := ow + 5
  let bottom_pad := ow * 4
  let side_pad := ow * 2
  let img_width := max text1_width text2_width + side_pad * 2
  let img_height := text1_height + text2_height + ls + top_pad + bottom_pad
  let x1 := (img_width - text1_width).fdiv 2
  let y1 := top_pad
  let x2 := (img_width - text2_width).fdiv 2
  let y2 := y1 + text1_height + ls
  { img_width := img_width
    img_height := img_height
    fontUsed := font
    owUsed := ow
    lsUsed := ls
    ops :=
      draw_text_with_outline (x1, y1) line1 font line1_color outline_color ow
      ++ draw_text_with_outline (x2, y2) line2 font line2_color outline_color ow }

/-- generate_text_image (lines 58-176).  Returns none exactly when the Python
function raises UnboundLocalError because the fitting loop body never ran and
the local variable font was never assigned; otherwise some render result. -/
def generate_text_image (penv : PathEnv) (tenv : TextEnv) (scriptDir : String)
    (line1 line2 : String) (font_size : Int)
    (line1_color line2_color outline_color : String)
    (outline_width padding line_spacing max_width min_font_size : Int) :
    Option RenderResult :=
  let r := fitResult penv tenv scriptDir line1 line2 outline_width max_width
    min_font_size font_size
  match r.2 with
  | none => none
  | some font =>
      some (renderWith tenv line1 line2 font_size line1_color line2_color
        outline_color outline_width line_spacing r.1 font)

/-! ## Helper lemmas about the fitting loop -/

/-- Loop-exit behaviour: once current_font_size drops below the floor the
loop returns it together with the last font assigned, whatever the fuel. -/
lemma fitLoop_exit (env : TextEnv) (fp : Option String) (l1 l2 : String)
    (ow mw mfs : Int) (fuel : Nat) (lastFont : Option LoadedFont) (current : Int)
    (hc : ¬ mfs ≤ current) :
    fitLoop env fp l1 l2 ow mw mfs fuel lastFont current = (current, lastFont) := by
  cases fuel with
  | zero => rfl
  | succ fuel => simp [fitLoop, hc]

/-- With no scalable font the first iteration loads the default font and
breaks, leaving current_font_size untouched. -/
lemma fitLoop_noFont (env : TextEnv) (l1 l2 : String)
    (ow mw mfs : Int) (fuel : Nat) (lastFont : Option LoadedFont) (current : Int)
    (hc : mfs ≤ current) :
    fitLoop env none l1 l2 ow mw mfs (fuel + 1) lastFont current
      = (current, some LoadedFont.defaultFont) := by
  simp [fitLoop, hc]

/-- Main characterisation of the loop with a scalable font and enough fuel:
the last size the loop loads a font at is a tried size s at least the floor,
no tried size above s fits, and either s fits and is the exit value of
current_font_size, or nothing tried fits, s is the lowest tried size and the
loop exits with current_font_size = s - 10, below the floor. -/
lemma fitLoop_spec (env : TextEnv) (p l1 l2 : String) (ow mw mfs : Int) :
    ∀ (fuel : Nat) (lastFont : Option LoadedFont) (current : Int),
      (current - mfs).toNat < fuel → mfs ≤ current →
      ∃ s : Int,
        (fitLoop env (some p) l1 l2 ow mw mfs fuel lastFont current).2
            = some (LoadedFont.truetype p s) ∧
        mfs ≤ s ∧ (∃ k : Nat, s = current - 10 * k) ∧
        (∀ t : Int, mfs ≤ t → (∃ k : Nat, t = current - 10 * k) →
          fitsAt env p l1 l2 ow mw t → t ≤ s) ∧
        ((fitsAt env p l1 l2 ow mw s ∧
            (fitLoop env (some p) l1 l2 ow mw mfs fuel lastFont current).1 = s) ∨
         (¬ fitsAt env p l1 l2 ow mw s ∧
            (fitLoop env (some p) l1 l2 ow mw mfs fuel lastFont current).1 = s - 10 ∧
            s - 10 < mfs ∧
            ∀ t : Int, mfs ≤ t → (∃ k : Nat, t = current - 10 * k) →
              ¬ fitsAt env p l1 l2 ow mw t)) := by
  intro fuel
  induction fuel with
  | zero => intro lastFont current hfuel hc; omega
  | succ fuel ih =>
    intro lastFont current hfuel hc
    by_cases hfit : fitsAt env p l1 l2 ow mw current
    · refine ⟨current, ?_, hc, ⟨0, by omega⟩, ?_, Or.inl ⟨hfit, ?_⟩⟩
      · simp [fitLoop, hc, hfit]
      · rintro t ht ⟨k, hk⟩ _; omega
      · simp [fitLoop, hc, hfit]
    · have hstep : fitLoop env (some p) l1 l2 ow mw mfs (fuel + 1) lastFont current
          = fitLoop env (some p) l1 l2 ow mw mfs fuel
              (some (LoadedFont.truetype p current)) (current - 10) := by
        simp [fitLoop, hc, hfit]
      by_cases hc2 : mfs ≤ current - 10
      · obtain ⟨s, h1, h2, ⟨k, hk⟩, h4, h5⟩ :=
          ih (some (LoadedFont.truetype p current)) (current - 10) (by omega) hc2
        refine ⟨s, ?_, h2, ⟨k + 1, by push_cast; omega⟩, ?_, ?_⟩
        · rw [hstep]; exact h1
        · rintro t ht ⟨j, hj⟩ hfitt
          match j with
          | 0 =>
            exfalso; apply hfit
            have htc : t = current := by omega
            rwa [htc] at hfitt
          | Nat.succ j =>
            exact h4 t ht ⟨j, by push_cast at hj ⊢; omega⟩ hfitt
        · rcases h5 with ⟨hf, hr1⟩ | ⟨hnf, hr1, hlt, hall⟩
          · exact Or.inl ⟨hf, by rw [hstep]; exact hr1⟩
          · refine Or.inr ⟨hnf, by rw [hstep]; exact hr1, hlt, ?_⟩
            rintro t ht ⟨j, hj⟩
            match j with
            | 0 =>
              have htc : t = current := by omega
              rwa [htc]
            | Nat.succ j =>
              exact hall t ht ⟨j, by push_cast at hj ⊢; omega⟩
      · have hstop : fitLoop env (some p) l1 l2 ow mw mfs fuel
            (some (LoadedFont.truetype p current)) (current - 10)
            = (current - 10, some (LoadedFont.truetype p current)) :=
          fitLoop_exit env (some p) l1 l2 ow mw mfs fuel _ _ hc2
        refine ⟨current, ?_, hc, ⟨0, by omega⟩, ?_, Or.inr ⟨hfit, ?_, by omega, ?_⟩⟩
        · rw [hstep, hstop]
        · rintro t ht ⟨k, hk⟩ _; omega
        · rw [hstep, hstop]
        · rintro t ht ⟨j, hj⟩
          match j with
          | 0 =>
            have htc : t = current := by omega
            rwa [htc]
          | Nat.succ j => exfalso; push_cast at hj; omega

/-- generate_text_image reduced once the fitting outcome is known. -/
lemma generate_eq_some {penv : PathEnv} {tenv : TextEnv}
    {scriptDir l1 l2 : String} {fs : Int} {c1 c2 oc : String}
    {ow pad ls mw mfs c : Int} {font : LoadedFont}
    (h : fitResult penv tenv scriptDir l1 l2 ow mw mfs fs = (c, some font)) :
    generate_text_image penv tenv scriptDir l1 l2 fs c1 c2 oc ow pad ls mw mfs
      = some (renderWith tenv l1 l2 fs c1 c2 oc ow ls c font) := by
  unfold generate_text_image
  rw [h]

/-- generate_text_image hits UnboundLocalError when the loop never assigned
the local variable font. -/
lemma generate_eq_none {penv : PathEnv} {tenv : TextEnv}
    {scriptDir l1 l2 : String} {fs : Int} {c1 c2 oc : String}
    {ow pad ls mw mfs c : Int}
    (h : fitResult penv tenv scriptDir l1 l2 ow mw mfs fs = (c, none)) :
    generate_text_image penv tenv scriptDir l1 l2 fs c1 c2 oc ow pad ls mw mfs
      = none := by
  unfold generate_text_image
  rw [h]

/-! ## Concrete environments used by witnesses and counterexamples -/

/-- Host on which every candidate font path exists. -/
def wPathEnv : PathEnv := ⟨fun _ => true⟩

/-- Host with no font at all. -/
def wPathEnvNone : PathEnv := ⟨fun _ => false⟩

/-- Measurement oracle whose line widths grow linearly with the font size
(7 pixels per point), as with a real scalable font. -/
def wTextEnv : TextEnv := ⟨fun _ s _ => ⟨0, 0, 7 * s, 100⟩, fun _ => ⟨0, 0, 50, 20⟩⟩

/-- Measurement oracle for a line so long it fits at no tried size. -/
def wTextEnvBig : TextEnv := ⟨fun _ _ _ => ⟨0, 0, 10000, 100⟩, fun _ => ⟨0, 0, 50, 20⟩⟩

/-! ## The claims -/

/-- Claim C1: with a scalable font available and min_font_size ≤ font_size,
the fitting loop returns, and stops at, the largest size among font_size,
font_size - 10, ... (never below min_font_size) whose measured width plus
2 * side_pad with side_pad = outline_width * 2 is at most max_width - the
first fitting size going downward. -/
theorem spec_c1 {penv : PathEnv} {tenv : TextEnv} {scriptDir l1 l2 p : String}
    {ow mw mfs fs s' : Int}
    (hpath : find_thai_font penv scriptDir = some p)
    (hmin : mfs ≤ fs)
    (hs' : triedSize fs mfs s')
    (hfit : fitsAt tenv p l1 l2 ow mw s') :
    ∃ s0 : Int,
      fitResult penv tenv scriptDir l1 l2 ow mw mfs fs
        = (s0, some (LoadedFont.truetype p s0)) ∧
      triedSize fs mfs s0 ∧ fitsAt tenv p l1 l2 ow mw s0 ∧
      ∀ t : Int, triedSize fs mfs t → fitsAt tenv p l1 l2 ow mw t → t ≤ s0 := by
  obtain ⟨s, h1, h2, h3, h4, h5⟩ :=
    fitLoop_spec tenv p l1 l2 ow mw mfs ((fs - mfs).toNat + 1) none fs (by omega) hmin
  have hres2 : (fitResult penv tenv scriptDir l1 l2 ow mw mfs fs).2
      = some (LoadedFont.truetype p s) := by
    unfold fitResult; rw [hpath]; exact h1
  rcases h5 with ⟨hf, hr1⟩ | ⟨hnf, hr1, hlt, hall⟩
  · have hres1 : (fitResult penv tenv scriptDir l1 l2 ow mw mfs fs).1 = s := by
      unfold fitResult; rw [hpath]; exact hr1
    refine ⟨s, Prod.ext_iff.2 ⟨hres1, hres2⟩, ⟨h2, h3⟩, hf, ?_⟩
    rintro t ⟨ht1, ht2⟩ hft
    exact h4 t ht1 ht2 hft
  · exact absurd hfit (hall s' hs'.1 hs'.2)

/-- Witness for C1 at a concrete host: widths 7 * s, outline 16, budget 1200,
sizes from 200 down to floor 60; size 160 is tried and fits. -/
theorem spec_c1_witness :
    find_thai_font wPathEnv "/app" = some "/app/fonts/PSLxOmyim-Bold.ttf" ∧
    (60 : Int) ≤ 200 ∧ triedSize 200 60 160 ∧
    fitsAt wTextEnv "/app/fonts/PSLxOmyim-Bold.ttf" "a" "b" 16 1200 160 ∧
    ∃ s0 : Int,
      fitResult wPathEnv wTextEnv "/app" "a" "b" 16 1200 60 200
        = (s0, some (LoadedFont.truetype "/app/fonts/PSLxOmyim-Bold.ttf" s0)) ∧
      triedSize 200 60 s0 ∧
      fitsAt wTextEnv "/app/fonts/PSLxOmyim-Bold.ttf" "a" "b" 16 1200 s0 ∧
      ∀ t : Int, triedSize 200 60 t →
        fitsAt wTextEnv "/app/fonts/PSLxOmyim-Bold.ttf" "a" "b" 16 1200 t → t ≤ s0 :=
  ⟨rfl, by decide, ⟨by decide, 4, by decide⟩, by decide,
    spec_c1 rfl (by decide)
      (⟨by decide, 4, by decide⟩ : triedSize 200 60 160)
      (by decide : fitsAt wTextEnv "/app/fonts/PSLxOmyim-Bold.ttf" "a" "b" 16 1200 160)⟩

/-- Claim C2: with a scalable font available and min_font_size ≤ font_size,
the font the image is rendered with has size at least min_font_size, and the
function returns an image - even when no tried size fits. -/
theorem spec_c2 {penv : PathEnv} {tenv : TextEnv} {scriptDir l1 l2 : String}
    {fs : Int} {c1 c2 oc : String} {ow pad ls mw mfs : Int} {p : String}
    (hpath : find_thai_font penv scriptDir = some p)
    (hmin : mfs ≤ fs) :
    ∃ (res : RenderResult) (s : Int),
      generate_text_image penv tenv scriptDir l1 l2 fs c1 c2 oc ow pad ls mw mfs
        = some res ∧
      res.fontUsed = LoadedFont.truetype p s ∧ mfs ≤ s := by
  obtain ⟨s, h1, h2, _, _, _⟩ :=
    fitLoop_spec tenv p l1 l2 ow mw mfs ((fs - mfs).toNat + 1) none fs (by omega) hmin
  have hE : fitResult penv tenv scriptDir l1 l2 ow mw mfs fs
      = ((fitResult penv tenv scriptDir l1 l2 ow mw mfs fs).1,
         some (LoadedFont.truetype p s)) :=
    Prod.ext_iff.2 ⟨rfl, by unfold fitResult; rw [hpath]; exact h1⟩
  exact ⟨_, s, generate_eq_some hE, rfl, h2⟩

/-- Witness for C2 at a host where the text fits at no tried size: the loop
bottoms out, the render still happens, at size 60 = min_font_size. -/
theorem spec_c2_witness :
    find_thai_font wPathEnv "/app" = some "/app/fonts/PSLxOmyim-Bold.ttf" ∧
    (60 : Int) ≤ 200 ∧
    ∃ (res : RenderResult) (s : Int),
      generate_text_image wPathEnv wTextEnvBig "/app" "a" "b" 200 "x" "y" "z" 16 20 20 1200 60
        = some res ∧
      res.fontUsed = LoadedFont.truetype "/app/fonts/PSLxOmyim-Bold.ttf" s ∧ (60 : Int) ≤ s :=
  ⟨rfl, by decide, spec_c2 rfl (by decide)⟩

/-- Claim C6: for fixed lines and style, the size the loop settles on is
monotone in max_width. -/
theorem spec_c6 {penv : PathEnv} {tenv : TextEnv} {scriptDir l1 l2 p : String}
    {ow mfs fs m1 m2 : Int}
    (hpath : find_thai_font penv scriptDir = some p)
    (hmin : mfs ≤ fs) (hm : m1 ≤ m2) :
    ∃ s1 s2 : Int,
      (fitResult penv tenv scriptDir l1 l2 ow m1 mfs fs).2
        = some (LoadedFont.truetype p s1) ∧
      (fitResult penv tenv scriptDir l1 l2 ow m2 mfs fs).2
        = some (LoadedFont.truetype p s2) ∧
      s1 ≤ s2 := by
  obtain ⟨s1, h11, h12, ⟨k1, hk1⟩, h14, h15⟩ :=
    fitLoop_spec tenv p l1 l2 ow m1 mfs ((fs - mfs).toNat + 1) none fs (by omega) hmin
  obtain ⟨s2, h21, h22, ⟨k2, hk2⟩, h24, h25⟩ :=
    fitLoop_spec tenv p l1 l2 ow m2 mfs ((fs - mfs).toNat + 1) none fs (by omega) hmin
  refine ⟨s1, s2, by unfold fitResult; rw [hpath]; exact h11,
    by unfold fitResult; rw [hpath]; exact h21, ?_⟩
  rcases h15 with ⟨hf1, _⟩ | ⟨_, _, hlt1, _⟩
  · have hf2 : fitsAt tenv p l1 l2 ow m2 s1 := by
      unfold fitsAt at hf1 ⊢; omega
    exact h24 s1 h12 ⟨k1, hk1⟩ hf2
  · omega

/-- Witness for C6: shrinking the budget from 1200 to 800 lowers the chosen
size from 160 to 100, never raising it. -/
theorem spec_c6_witness :
    find_thai_font wPathEnv "/app" = some "/app/fonts/PSLxOmyim-Bold.ttf" ∧
    (60 : Int) ≤ 200 ∧ (800 : Int) ≤ 1200 ∧
    ∃ s1 s2 : Int,
      (fitResult wPathEnv wTextEnv "/app" "a" "b" 16 800 60 200).2
        = some (LoadedFont.truetype "/app/fonts/PSLxOmyim-Bold.ttf" s1) ∧
      (fitResult wPathEnv wTextEnv "/app" "a" "b" 16 1200 60 200).2
        = some (LoadedFont.truetype "/app/fonts/PSLxOmyim-Bold.ttf" s2) ∧
      s1 ≤ s2 :=
  ⟨rfl, by decide, by decide, spec_c6 rfl (by decide) (by decide)⟩

/-- Claim C9: when min_font_size ≤ font_size the loop body runs at least
once, the local font is assigned and the call returns an image; when
min_font_size > font_size the loop body never runs and the call fails
(UnboundLocalError) instead of returning an image. -/
theorem spec_c9 (penv : PathEnv) (tenv : TextEnv) (scriptDir l1 l2 : String)
    (fs : Int) (c1 c2 oc : String) (ow pad ls mw mfs : Int) :
    (mfs ≤ fs →
      (generate_text_image penv tenv scriptDir l1 l2 fs c1 c2 oc ow pad ls mw mfs).isSome
        = true) ∧
    (fs < mfs →
      generate_text_image penv tenv scriptDir l1 l2 fs c1 c2 oc ow pad ls mw mfs
        = none) := by
  constructor
  · intro hmin
    rcases hp : find_thai_font penv scriptDir with _ | p
    · have hE : fitResult penv tenv scriptDir l1 l2 ow mw mfs fs
          = (fs, some LoadedFont.defaultFont) := by
        unfold fitResult; rw [hp]
        exact fitLoop_noFont tenv l1 l2 ow mw mfs ((fs - mfs).toNat) none fs hmin
      rw [generate_eq_some hE]; rfl
    · obtain ⟨s, h1, _⟩ :=
        fitLoop_spec tenv p l1 l2 ow mw mfs ((fs - mfs).toNat + 1) none fs (by omega) hmin
      have hE : fitResult penv tenv scriptDir l1 l2 ow mw mfs fs
          = ((fitResult penv tenv scriptDir l1 l2 ow mw mfs fs).1,
             some (LoadedFont.truetype p s)) :=
        Prod.ext_iff.2 ⟨rfl, by unfold fitResult; rw [hp]; exact h1⟩
      rw [generate_eq_some hE]; rfl
  · intro hlt
    have h0 : (fs - mfs).toNat = 0 := by omega
    have hE : fitResult penv tenv scriptDir l1 l2 ow mw mfs fs = (fs, none) := by
      unfold fitResult; rw [h0]
      exact fitLoop_exit tenv (find_thai_font penv scriptDir) l1 l2 ow mw mfs
        (0 + 1) none fs (by omega)
    exact generate_eq_none hE

/-- Witness for C9: the same style at base size 200 renders, at base size 50
(below the floor 60) the call fails. -/
theorem spec_c9_witness :
    (generate_text_image wPathEnv wTextEnv "/app" "a" "b" 200 "x" "y" "z" 16 20 20 1200 60).isSome
      = true ∧
    generate_text_image wPathEnv wTextEnv "/app" "a" "b" 50 "x" "y" "z" 16 20 20 1200 60
      = none :=
  ⟨(spec_c9 wPathEnv wTextEnv "/app" "a" "b" 200 "x" "y" "z" 16 20 20 1200 60).1 (by decide),
   (spec_c9 wPathEnv wTextEnv "/app" "a" "b" 50 "x" "y" "z" 16 20 20 1200 60).2 (by decide)⟩

/-- Claim C10: the padding parameter is dead - two calls differing only in
padding produce identical output. -/
theorem spec_c10 (penv : PathEnv) (tenv : TextEnv) (scriptDir l1 l2 : String)
    (fs : Int) (c1 c2 oc : String) (ow ls mw mfs p1 p2 : Int) :
    generate_text_image penv tenv scriptDir l1 l2 fs c1 c2 oc ow p1 ls mw mfs
      = generate_text_image penv tenv scriptDir l1 l2 fs c1 c2 oc ow p2 ls mw mfs := rfl

/-! ## Field computations of the render stage -/

lemma renderWith_fontUsed (tenv : TextEnv) (l1 l2 : String) (fs : Int)
    (c1 c2 oc : String) (ow ls c : Int) (font : LoadedFont) :
    (renderWith tenv l1 l2 fs c1 c2 oc ow ls c font).fontUsed = font := rfl

lemma renderWith_owUsed (tenv : TextEnv) (l1 l2 : String) (fs : Int)
    (c1 c2 oc : String) (ow ls c : Int) (font : LoadedFont) :
    (renderWith tenv l1 l2 fs c1 c2 oc ow ls c font).owUsed
      = if c < fs then max 8 ((ow * c).tdiv fs) else ow := rfl

lemma renderWith_lsUsed (tenv : TextEnv) (l1 l2 : String) (fs : Int)
    (c1 c2 oc : String) (ow ls c : Int) (font : LoadedFont) :
    (renderWith tenv l1 l2 fs c1 c2 oc ow ls c font).lsUsed
      = if c < fs then max 10 ((ls * c).tdiv fs) else ls := rfl

lemma renderWith_img_width (tenv : TextEnv) (l1 l2 : String) (fs : Int)
    (c1 c2 oc : String) (ow ls c : Int) (font : LoadedFont) :
    (renderWith tenv l1 l2 fs c1 c2 oc ow ls c font).img_width
      = max ((bboxOf tenv font l1).x1 - (bboxOf tenv font l1).x0)
            ((bboxOf tenv font l2).x1 - (bboxOf tenv font l2).x0)
        + ((renderWith tenv l1 l2 fs c1 c2 oc ow ls c font).owUsed * 2) * 2 := rfl

lemma renderWith_img_height (tenv : TextEnv) (l1 l2 : String) (fs : Int)
    (c1 c2 oc : String) (ow ls c : Int) (font : LoadedFont) :
    (renderWith tenv l1 l2 fs c1 c2 oc ow ls c font).img_height
      = ((bboxOf tenv font l1).y1 - (bboxOf tenv font l1).y0)
        + ((bboxOf tenv font l2).y1 - (bboxOf tenv font l2).y0)
        + (renderWith tenv l1 l2 fs c1 c2 oc ow ls c font).lsUsed
        + ((renderWith tenv l1 l2 fs c1 c2 oc ow ls c font).owUsed + 5)
        + (renderWith tenv l1 l2 fs c1 c2 oc ow ls c font).owUsed * 4 := rfl

/-- With a scalable font and the floor below the base size, the loop returns
a tried size s, and exits either at s (it fitted) or at s - 10 (floor passed). -/
lemma fitResult_char {penv : PathEnv} {tenv : TextEnv} {scriptDir l1 l2 p : String}
    {ow mw mfs fs : Int}
    (hpath : find_thai_font penv scriptDir = some p) (hmin : mfs ≤ fs) :
    ∃ s : Int,
      (fitResult penv tenv scriptDir l1 l2 ow mw mfs fs).2
        = some (LoadedFont.truetype p s) ∧
      triedSize fs mfs s ∧
      ((fitResult penv tenv scriptDir l1 l2 ow mw mfs fs).1 = s ∨
       ((fitResult penv tenv scriptDir l1 l2 ow mw mfs fs).1 = s - 10 ∧ s - 10 < mfs)) := by
  obtain ⟨s, h1, h2, h3, _, h5⟩ :=
    fitLoop_spec tenv p l1 l2 ow mw mfs ((fs - mfs).toNat + 1) none fs (by omega) hmin
  refine ⟨s, by unfold fitResult; rw [hpath]; exact h1, ⟨h2, h3⟩, ?_⟩
  rcases h5 with ⟨_, hr1⟩ | ⟨_, hr1, hlt, _⟩
  · exact Or.inl (by unfold fitResult; rw [hpath]; exact hr1)
  · exact Or.inr ⟨by unfold fitResult; rw [hpath]; exact hr1, hlt⟩

/-- Claim C3: the canvas satisfies the layout rule at the finally-chosen
font: side padding = owUsed * 2, top = owUsed + 5, bottom = owUsed * 4, width
= max line width + 2 * side padding (hence at least max width + 4 * owUsed),
height = heights + line spacing + top + bottom, all measured with the final
font and the possibly rescaled outline width and spacing. -/
theorem spec_c3 {penv : PathEnv} {tenv : TextEnv} {scriptDir l1 l2 : String}
    {fs : Int} {c1 c2 oc : String} {ow pad ls mw mfs : Int} {res : RenderResult}
    (hres : generate_text_image penv tenv scriptDir l1 l2 fs c1 c2 oc ow pad ls mw mfs
      = some res) :
    res.img_width
      = max ((bboxOf tenv res.fontUsed l1).x1 - (bboxOf tenv res.fontUsed l1).x0)
            ((bboxOf tenv res.fontUsed l2).x1 - (bboxOf tenv res.fontUsed l2).x0)
        + (res.owUsed * 2) * 2 ∧
    res.img_height
      = ((bboxOf tenv res.fontUsed l1).y1 - (bboxOf tenv res.fontUsed l1).y0)
        + ((bboxOf tenv res.fontUsed l2).y1 - (bboxOf tenv res.fontUsed l2).y0)
        + res.lsUsed + (res.owUsed + 5) + res.owUsed * 4 ∧
    max ((bboxOf tenv res.fontUsed l1).x1 - (bboxOf tenv res.fontUsed l1).x0)
        ((bboxOf tenv res.fontUsed l2).x1 - (bboxOf tenv res.fontUsed l2).x0)
      + 4 * res.owUsed ≤ res.img_width := by
  rcases hE : fitResult penv tenv scriptDir l1 l2 ow mw mfs fs with ⟨c, fo⟩
  rcases fo with _ | font
  · rw [generate_eq_none hE] at hres; cases hres
  · rw [generate_eq_some hE] at hres
    injection hres with hres
    subst hres
    rw [renderWith_fontUsed]
    refine ⟨renderWith_img_width tenv l1 l2 fs c1 c2 oc ow ls c font,
      renderWith_img_height tenv l1 l2 fs c1 c2 oc ow ls c font, ?_⟩
    have h1 := renderWith_img_width tenv l1 l2 fs c1 c2 oc ow ls c font
    generalize hW : max ((bboxOf tenv font l1).x1 - (bboxOf tenv font l1).x0)
      ((bboxOf tenv font l2).x1 - (bboxOf tenv font l2).x0) = W at h1 ⊢
    omega

/-- Witness for C3 at a concrete render. -/
theorem spec_c3_witness :
    ∃ res : RenderResult,
      generate_text_image wPathEnv wTextEnv "/app" "a" "b" 100 "x" "y" "z" 2 20 20 1200 60
        = some res ∧
      (res.img_width
        = max ((bboxOf wTextEnv res.fontUsed "a").x1 - (bboxOf wTextEnv res.fontUsed "a").x0)
              ((bboxOf wTextEnv res.fontUsed "b").x1 - (bboxOf wTextEnv res.fontUsed "b").x0)
          + (res.owUsed * 2) * 2 ∧
      res.img_height
        = ((bboxOf wTextEnv res.fontUsed "a").y1 - (bboxOf wTextEnv res.fontUsed "a").y0)
          + ((bboxOf wTextEnv res.fontUsed "b").y1 - (bboxOf wTextEnv res.fontUsed "b").y0)
          + res.lsUsed + (res.owUsed + 5) + res.owUsed * 4 ∧
      max ((bboxOf wTextEnv res.fontUsed "a").x1 - (bboxOf wTextEnv res.fontUsed "a").x0)
          ((bboxOf wTextEnv res.fontUsed "b").x1 - (bboxOf wTextEnv res.fontUsed "b").x0)
        + 4 * res.owUsed ≤ res.img_width) := by
  rcases hE : generate_text_image wPathEnv wTextEnv "/app" "a" "b" 100 "x" "y" "z" 2 20 20 1200 60
    with _ | res
  · exact absurd hE (by decide)
  · exact ⟨res, rfl, spec_c3 hE⟩

/-- Claim C8: when no candidate font path exists, find_thai_font returns the
none sentinel without failing; the render then loads the default font on the
first loop iteration, never rescales size, outline width or spacing, and
still returns an image. -/
theorem spec_c8 {penv : PathEnv} {tenv : TextEnv} {scriptDir l1 l2 : String}
    {fs : Int} {c1 c2 oc : String} {ow pad ls mw mfs : Int}
    (hnone : ∀ q ∈ font_paths scriptDir, penv.exist q = false)
    (hmin : mfs ≤ fs) :
    find_thai_font penv scriptDir = none ∧
    ∃ res : RenderResult,
      generate_text_image penv tenv scriptDir l1 l2 fs c1 c2 oc ow pad ls mw mfs
        = some res ∧
      res.fontUsed = LoadedFont.defaultFont ∧
      res.owUsed = ow ∧ res.lsUsed = ls ∧
      (fitResult penv tenv scriptDir l1 l2 ow mw mfs fs).1 = fs := by
  have hfind : find_thai_font penv scriptDir = none := by
    unfold find_thai_font
    exact List.find?_eq_none.2 fun q hq => by simp [hnone q hq]
  have hE : fitResult penv tenv scriptDir l1 l2 ow mw mfs fs
      = (fs, some LoadedFont.defaultFont) := by
    unfold fitResult; rw [hfind]
    exact fitLoop_noFont tenv l1 l2 ow mw mfs ((fs - mfs).toNat) none fs hmin
  refine ⟨hfind, _, generate_eq_some hE, rfl, ?_, ?_, by rw [hE]⟩
  · rw [renderWith_owUsed]; simp
  · rw [renderWith_lsUsed]; simp

/-- Witness for C8 on a host with no fonts at all. -/
theorem spec_c8_witness :
    find_thai_font wPathEnvNone "/app" = none ∧
    ∃ res : RenderResult,
      generate_text_image wPathEnvNone wTextEnv "/app" "a" "b" 200 "x" "y" "z" 16 20 20 1200 60
        = some res ∧
      res.fontUsed = LoadedFont.defaultFont ∧
      res.owUsed = 16 ∧ res.lsUsed = 20 ∧
      (fitResult wPathEnvNone wTextEnv "/app" "a" "b" 16 1200 60 200).1 = 200 :=
  spec_c8 (fun q _ => rfl) (by decide)

/-- Counterexample to C4 as stated: with outline_width 100, line_spacing 20,
base size 200, floor 60 and lines that fit at no tried size, the font used
has size 60 (the floor-respecting chosen size), so the claim predicts an
outline width of max(8, round(100 * 60 / 200)) = 30; the code scales by the
loop-exit current_font_size 50 (ten below the last tried size) with int()
truncation and actually uses 25. -/
theorem spec_c4_cex :
    (generate_text_image wPathEnv wTextEnvBig "/app" "a" "b" 200 "x" "y" "z"
        100 20 20 1200 60).map (fun res => (res.fontUsed, res.owUsed))
      = some (LoadedFont.truetype "/app/fonts/PSLxOmyim-Bold.ttf" 60, 25) ∧
    max 8 (round ((100 * 60 : ℚ) / 200)) = (30 : ℤ) ∧
    (25 : ℤ) ≠ 30 := by
  refine ⟨by decide, ?_, by decide⟩
  have h : ((100 * 60 : ℚ) / 200) = ((30 : ℤ) : ℚ) := by norm_num
  rw [h, round_intCast]
  norm_num

/-- Claim C4 as amended: when the loop exits with current_font_size below the
base size, the outline width and line spacing used are
max(8, trunc(outline_width * c / font_size)) and
max(10, trunc(line_spacing * c / font_size)) where trunc is truncation toward
zero (Python int()) and c is the loop-exit current_font_size - the accepted
size when some tried size fits, and otherwise 10 less than the last tried
size, possibly below min_font_size. -/
theorem spec_c4 {penv : PathEnv} {tenv : TextEnv} {scriptDir l1 l2 p : String}
    {fs : Int} {c1 c2 oc : String} {ow pad ls mw mfs : Int}
    (hpath : find_thai_font penv scriptDir = some p)
    (hmin : mfs ≤ fs)
    (hcs : (fitResult penv tenv scriptDir l1 l2 ow mw mfs fs).1 < fs) :
    ∃ (res : RenderResult) (s : Int),
      generate_text_image penv tenv scriptDir l1 l2 fs c1 c2 oc ow pad ls mw mfs
        = some res ∧
      res.fontUsed = LoadedFont.truetype p s ∧ triedSize fs mfs s ∧
      res.owUsed = max 8 ((ow * (fitResult penv tenv scriptDir l1 l2 ow mw mfs fs).1).tdiv fs) ∧
      res.lsUsed = max 10 ((ls * (fitResult penv tenv scriptDir l1 l2 ow mw mfs fs).1).tdiv fs) ∧
      ((fitResult penv tenv scriptDir l1 l2 ow mw mfs fs).1 = s ∨
       ((fitResult penv tenv scriptDir l1 l2 ow mw mfs fs).1 = s - 10 ∧ s - 10 < mfs)) := by
  obtain ⟨s, h2, hts, hdis⟩ :=
    @fitResult_char penv tenv scriptDir l1 l2 p ow mw mfs fs hpath hmin
  have hE : fitResult penv tenv scriptDir l1 l2 ow mw mfs fs
      = ((fitResult penv tenv scriptDir l1 l2 ow mw mfs fs).1,
         some (LoadedFont.truetype p s)) :=
    Prod.ext_iff.2 ⟨rfl, h2⟩
  refine ⟨_, s, generate_eq_some hE, rfl, hts, ?_, ?_, hdis⟩
  · rw [renderWith_owUsed, if_pos hcs]
  · rw [renderWith_lsUsed, if_pos hcs]

/-- Witness for the amended C4: base 200, floor 60, nothing fits, loop exits
at 50; outline 100 becomes max(8, trunc(100 * 50 / 200)) = 25 and spacing 20
becomes max(10, trunc(20 * 50 / 200)) = 10. -/
theorem spec_c4_witness :
    find_thai_font wPathEnv "/app" = some "/app/fonts/PSLxOmyim-Bold.ttf" ∧
    (60 : Int) ≤ 200 ∧
    (fitResult wPathEnv wTextEnvBig "/app" "a" "b" 100 1200 60 200).1 < 200 ∧
    ∃ (res : RenderResult) (s : Int),
      generate_text_image wPathEnv wTextEnvBig "/app" "a" "b" 200 "x" "y" "z" 100 20 20 1200 60
        = some res ∧
      res.fontUsed = LoadedFont.truetype "/app/fonts/PSLxOmyim-Bold.ttf" s ∧
      triedSize 200 60 s ∧
      res.owUsed
        = max 8 ((100 * (fitResult wPathEnv wTextEnvBig "/app" "a" "b" 100 1200 60 200).1).tdiv 200) ∧
      res.lsUsed
        = max 10 ((20 * (fitResult wPathEnv wTextEnvBig "/app" "a" "b" 100 1200 60 200).1).tdiv 200) ∧
      ((fitResult wPathEnv wTextEnvBig "/app" "a" "b" 100 1200 60 200).1 = s ∨
       ((fitResult wPathEnv wTextEnvBig "/app" "a" "b" 100 1200 60 200).1 = s - 10 ∧
         s - 10 < 60)) :=
  ⟨rfl, by decide, by decide, spec_c4 rfl (by decide) (by decide)⟩

/-- Counterexample to C5 as stated: outline_width 5 with a reduced chosen
size (160 < 200) is rescaled to max(8, trunc(5 * 160 / 200)) = 8, which
exceeds the original value 5, refuting the claimed upper bound. -/
theorem spec_c5_cex :
    (generate_text_image wPathEnv wTextEnv "/app" "a" "b" 200 "x" "y" "z"
        5 20 20 1200 60).map (fun res => (res.fontUsed, res.owUsed))
      = some (LoadedFont.truetype "/app/fonts/PSLxOmyim-Bold.ttf" 160, 8) ∧
    ¬ ((8 : ℤ) ≤ 5) :=
  ⟨by decide, by decide⟩

/-- Scaling a positive value by a truncated ratio c / fs with c < fs and
0 < fs never exceeds the value: a nonnegative product divides monotonically
(truncation agrees with Euclidean division there) and a negative product
truncates toward zero, hence below any positive value. -/
lemma tdiv_scale_le {v c fs : Int} (hv : 0 < v) (hfs : 0 < fs) (hc : c < fs) :
    (v * c).tdiv fs ≤ v := by
  rcases le_or_lt 0 (v * c) with h | h
  · rw [Int.tdiv_eq_ediv h (le_of_lt hfs)]
    calc v * c / fs
        ≤ v * fs / fs :=
          Int.ediv_le_ediv hfs (mul_le_mul_of_nonneg_left (le_of_lt hc) (le_of_lt hv))
      _ = v := Int.mul_ediv_cancel v (by omega)
  · have h0 : 0 ≤ (-(v * c)).tdiv fs := Int.tdiv_nonneg (by omega) (by omega)
    rw [Int.neg_tdiv] at h0
    omega

/-- Claim C5 as amended: when the scaling branch triggers (loop-exit
current_font_size below a positive base size), the outline width and line
spacing used are at least their floors 8 and 10, and are at most their
original values provided those originals are themselves at least the floors.
When an original lies below its floor the code raises it to the floor,
exceeding the original. -/
theorem spec_c5 {penv : PathEnv} {tenv : TextEnv} {scriptDir l1 l2 p : String}
    {fs : Int} {c1 c2 oc : String} {ow pad ls mw mfs : Int}
    (hpath : find_thai_font penv scriptDir = some p)
    (hmin : mfs ≤ fs) (hfs : 0 < fs)
    (hcs : (fitResult penv tenv scriptDir l1 l2 ow mw mfs fs).1 < fs)
    (how : 8 ≤ ow) (hls : 10 ≤ ls) :
    ∃ res : RenderResult,
      generate_text_image penv tenv scriptDir l1 l2 fs c1 c2 oc ow pad ls mw mfs
        = some res ∧
      8 ≤ res.owUsed ∧ res.owUsed ≤ ow ∧
      10 ≤ res.lsUsed ∧ res.lsUsed ≤ ls := by
  obtain ⟨s, h2, hts, hdis⟩ :=
    @fitResult_char penv tenv scriptDir l1 l2 p ow mw mfs fs hpath hmin
  have hE : fitResult penv tenv scriptDir l1 l2 ow mw mfs fs
      = ((fitResult penv tenv scriptDir l1 l2 ow mw mfs fs).1,
         some (LoadedFont.truetype p s)) :=
    Prod.ext_iff.2 ⟨rfl, h2⟩
  have howc : (ow * (fitResult penv tenv scriptDir l1 l2 ow mw mfs fs).1).tdiv fs ≤ ow :=
    tdiv_scale_le (by omega) hfs hcs
  have hlsc : (ls * (fitResult penv tenv scriptDir l1 l2 ow mw mfs fs).1).tdiv fs ≤ ls :=
    tdiv_scale_le (by omega) hfs hcs
  refine ⟨_, generate_eq_some hE, ?_, ?_, ?_, ?_⟩
  · rw [renderWith_owUsed, if_pos hcs]; exact le_max_left _ _
  · rw [renderWith_owUsed, if_pos hcs]; exact max_le how howc
  · rw [renderWith_lsUsed, if_pos hcs]; exact le_max_left _ _
  · rw [renderWith_lsUsed, if_pos hcs]; exact max_le hls hlsc

/-- Witness for the amended C5: outline 16 and spacing 20 at chosen size 160
of base 200 become 12 and 16 - within the floors and the originals. -/
theorem spec_c5_witness :
    find_thai_font wPathEnv "/app" = some "/app/fonts/PSLxOmyim-Bold.ttf" ∧
    (60 : Int) ≤ 200 ∧ (0 : Int) < 200 ∧
    (fitResult wPathEnv wTextEnv "/app" "a" "b" 16 1200 60 200).1 < 200 ∧
    (8 : Int) ≤ 16 ∧ (10 : Int) ≤ 20 ∧
    ∃ res : RenderResult,
      generate_text_image wPathEnv wTextEnv "/app" "a" "b" 200 "x" "y" "z" 16 20 20 1200 60
        = some res ∧
      8 ≤ res.owUsed ∧ res.owUsed ≤ 16 ∧
      10 ≤ res.lsUsed ∧ res.lsUsed ≤ 20 :=
  ⟨rfl, by decide, by decide, by decide, by decide, by decide,
    spec_c5 rfl (by decide) (by decide) (by decide) (by decide) (by decide)⟩

/-! ## The outline drawer -/

lemma mem_pyRange {a b x : Int} : x ∈ pyRange a b ↔ a ≤ x ∧ x < b := by
  unfold pyRange
  constructor
  · intro h
    obtain ⟨i, hi, rfl⟩ := List.mem_map.1 h
    rw [List.mem_range] at hi
    omega
  · rintro ⟨h1, h2⟩
    exact List.mem_map.2 ⟨(x - a).toNat, List.mem_range.2 (by omega), by omega⟩

lemma nodup_pyRange (a b : Int) : (pyRange a b).Nodup := by
  unfold pyRange
  refine List.Nodup.map ?_ (List.nodup_range _)
  intro i j h
  have h' : a + (i : Int) = a + (j : Int) := h
  omega

/-- Claim C7: draw_text_with_outline stamps the text in the outline colour at
(x + dx, y + dy) exactly once for each integer pair (dx, dy) in the square
[-w, w] x [-w, w] with dx * dx + dy * dy ≤ w * w (the filled disc, not the
whole square), and after all stamps draws the text exactly once more at
(x, y) in the fill colour, last. -/
theorem spec_c7 {x y : Int} {t : String} {f : LoadedFont} {fc oc : String} {w : Int}
    (hw : 0 ≤ w) (hne : oc ≠ fc) :
    ∃ stamps : List DrawOp,
      draw_text_with_outline (x, y) t f fc oc w
        = stamps ++ [DrawOp.text (x, y) t f fc] ∧
      stamps.Nodup ∧
      (∀ op : DrawOp, op ∈ stamps ↔ ∃ dx dy : Int,
        -w ≤ dx ∧ dx ≤ w ∧ -w ≤ dy ∧ dy ≤ w ∧ dx * dx + dy * dy ≤ w * w ∧
        op = DrawOp.text (x + dx, y + dy) t f oc) ∧
      DrawOp.text (x, y) t f fc ∉ stamps := by
  refine ⟨(pyRange (-w) (w + 1)).flatMap fun dx =>
      (pyRange (-w) (w + 1)).filterMap fun dy =>
        if dx * dx + dy * dy ≤ w * w then
          some (DrawOp.text (x + dx, y + dy) t f oc)
        else none, rfl, ?_, ?_, ?_⟩
  · rw [List.nodup_flatMap]
    constructor
    · intro dx _
      refine List.Nodup.filterMap ?_ (nodup_pyRange _ _)
      intro dy dy' op hop hop'
      simp only [Option.mem_def, Option.ite_none_right_eq_some, Option.some.injEq] at hop hop'
      obtain ⟨_, rfl⟩ := hop
      obtain ⟨_, h⟩ := hop'
      simp only [DrawOp.text.injEq, Prod.mk.injEq] at h
      omega
    · refine List.Pairwise.imp ?_ (nodup_pyRange (-w) (w + 1))
      intro dx dx' hne' op h1 h2
      simp only [List.mem_filterMap, Option.ite_none_right_eq_some,
        Option.some.injEq] at h1 h2
      obtain ⟨dy, hm, hc, rfl⟩ := h1
      obtain ⟨dy', hm', hc', h⟩ := h2
      simp only [DrawOp.text.injEq, Prod.mk.injEq] at h
      exact hne' (by omega)
  · intro op
    simp only [List.mem_flatMap, List.mem_filterMap, mem_pyRange,
      Option.ite_none_right_eq_some, Option.some.injEq]
    constructor
    · rintro ⟨dx, ⟨h1, h2⟩, dy, ⟨h3, h4⟩, h5, rfl⟩
      exact ⟨dx, dy, h1, by omega, h3, by omega, h5, rfl⟩
    · rintro ⟨dx, dy, h1, h2, h3, h4, h5, rfl⟩
      exact ⟨dx, ⟨h1, by omega⟩, dy, ⟨h3, by omega⟩, h5, rfl⟩
  · intro hmem
    simp only [List.mem_flatMap, List.mem_filterMap, mem_pyRange,
      Option.ite_none_right_eq_some, Option.some.injEq] at hmem
    obtain ⟨dx, hdx, dy, hdy, hc, h⟩ := hmem
    injection h with hpos hcon hfont hcol
    exact hne hcol

/-- Witness for C7 with outline width 1 and distinct colours. -/
theorem spec_c7_witness :
    (0 : Int) ≤ 1 ∧ "o" ≠ "f" ∧
    ∃ stamps : List DrawOp,
      draw_text_with_outline (0, 0) "a" LoadedFont.defaultFont "f" "o" 1
        = stamps ++ [DrawOp.text (0, 0) "a" LoadedFont.defaultFont "f"] ∧
      stamps.Nodup ∧
      (∀ op : DrawOp, op ∈ stamps ↔ ∃ dx dy : Int,
        -1 ≤ dx ∧ dx ≤ 1 ∧ -1 ≤ dy ∧ dy ≤ 1 ∧ dx * dx + dy * dy ≤ 1 * 1 ∧
        op = DrawOp.text (0 + dx, 0 + dy) "a" LoadedFont.defaultFont "o") ∧
      DrawOp.text (0, 0) "a" LoadedFont.defaultFont "f" ∉ stamps :=
  ⟨by decide, by decide, spec_c7 (by decide) (by decide)⟩
